import Mathlib

/-!
Verification development for the condition / data-sampling subsystem of a
physics-informed neural-network framework.

Part 1 embeds `DiffEqModel._prepare_inputs`
(src/neural_diff_eq/models/diffeqmodel.py) shallowly: an ordered dict of
2-D tensors becomes an association list of `PyTensor` values (a list of
rows of rationals plus a `requiresGrad` flag), and in-place mutation of
the caller's dict becomes explicit state passing (the function returns
the post-call dict together with the stacked tensor or the raised error).

Part 2 models the condition / datacreator classes that the repository's
test suite (tests/test_conditions.py) exercises; those class bodies are
not part of the sources at hand, so each definition is modelled from the
spec (and pinned, where the spec is ambiguous or contradicted, by the
expectations the test suite encodes).
-/

/-- Errors that the Python code can raise, by class. -/
inductive PyErr where
  | runtimeError
  | notImplementedError
  | typeError
  | keyError
deriving DecidableEq

/-- A torch tensor as used by `_prepare_inputs`: a 2-D array of values
(rows of rationals) together with its `requires_grad` flag. -/
structure PyTensor where
  data : List (List ℚ)
  requiresGrad : Bool
deriving DecidableEq

/-- The `track_gradients` argument of `_prepare_inputs`: a bool, an
iterable of variable names, or anything else (neither bool nor iterable). -/
inductive TrackGradients where
  | bool (b : Bool)
  | strList (names : List String)
  | invalid
deriving DecidableEq

/-- One iteration of the Python loop body
`input_dict[key].requires_grad = True`: sets the flag of the entry whose
key matches, leaving every other entry untouched. -/
def setKeyGrad (d : List (String × PyTensor)) (key : String) :
    List (String × PyTensor) :=
  d.map fun p => if p.1 = key then (p.1, ⟨p.2.data, true⟩) else p

/-- The loop `for key in track_gradients: input_dict[key].requires_grad = True`,
with explicit state: returns the dict after the loop together with a success
flag; a key absent from the dict raises `KeyError`, and the mutations of the
earlier iterations persist (second component `false`). -/
def setListGradSt (d : List (String × PyTensor)) :
    List String → List (String × PyTensor) × Bool
  | [] => (d, true)
  | key :: rest =>
    if d.any fun p => p.1 == key then setListGradSt (setKeyGrad d key) rest
    else (d, false)

/-- One step of `torch.cat(..., dim=1)`: rows of the accumulator are
extended by the corresponding rows of the next tensor. -/
def catRows (a b : List (List ℚ)) : List (List ℚ) :=
  List.zipWith (fun r s => r ++ s) a b

/-- `torch.cat(ts, dim=1)`: raises on an empty list or on tensors whose
leading dimensions disagree; otherwise concatenates all tensors along
dimension 1. -/
def catDim1 (ts : List (List (List ℚ))) : Except PyErr (List (List ℚ)) :=
  match ts with
  | [] => .error .runtimeError
  | t :: rest =>
    if rest.all fun s => s.length == t.length then .ok (rest.foldl catRows t)
    else .error .runtimeError

/-- `DiffEqModel._prepare_inputs(input_dict, track_gradients)`.  The first
component of the result is the caller's `input_dict` after the call (the
Python code mutates it in place); the second is the stacked tensor
`torch.cat([v for k, v in input_dict.items()], dim=1)` or the raised
error.  A non-bool non-iterable `track_gradients` raises `TypeError`
before any entry is touched. -/
def prepare_inputs (d : List (String × PyTensor)) (tg : TrackGradients) :
    List (String × PyTensor) × Except PyErr (List (List ℚ)) :=
  match tg with
  | .bool b =>
    let d' := if b then d.map fun p => (p.1, ⟨p.2.data, true⟩) else d
    (d', catDim1 (d'.map fun p => p.2.data))
  | .strList names =>
    match setListGradSt d names with
    | (d', true) => (d', catDim1 (d'.map fun p => p.2.data))
    | (d', false) => (d', .error .keyError)
  | .invalid => (d, .error .typeError)

/-- A 2-D array has shape `(n, w)`: `n` rows, each of width `w`. -/
def hasShape (t : List (List ℚ)) (n w : ℕ) : Prop :=
  t.length = n ∧ ∀ r ∈ t, r.length = w

lemma forall₂_imp_mem {α β : Type} {R S : α → β → Prop} :
    ∀ {l : List α} {l' : List β}, List.Forall₂ R l l' →
      (∀ a ∈ l, ∀ b, R a b → S a b) → List.Forall₂ S l l' := by
  intro l l' h
  induction h with
  | nil => intro _; exact List.Forall₂.nil
  | cons hab _ ih =>
    intro hm
    exact List.Forall₂.cons (hm _ (by simp) _ hab)
      (ih fun a ha b hr => hm a (by simp [ha]) b hr)

lemma forall₂_mem_right {α β : Type} {R : α → β → Prop} :
    ∀ {l : List α} {l' : List β}, List.Forall₂ R l l' →
      ∀ b ∈ l', ∃ a ∈ l, R a b := by
  intro l l' h
  induction h with
  | nil => intro b hb; simp at hb
  | cons hab _ ih =>
    intro b hb
    rcases List.mem_cons.mp hb with h1 | h2
    · exact ⟨_, by simp, h1 ▸ hab⟩
    · obtain ⟨a, ha, har⟩ := ih b h2
      exact ⟨a, by simp [ha], har⟩

lemma forall₂_mem_left {α β : Type} {R : α → β → Prop} :
    ∀ {l : List α} {l' : List β}, List.Forall₂ R l l' →
      ∀ a ∈ l, ∃ b ∈ l', R a b := by
  intro l l' h
  induction h with
  | nil => intro a ha; simp at ha
  | cons hab _ ih =>
    intro a ha
    rcases List.mem_cons.mp ha with h1 | h2
    · exact ⟨_, by simp, h1 ▸ hab⟩
    · obtain ⟨b, hb, hbr⟩ := ih a h2
      exact ⟨b, by simp [hb], hbr⟩

lemma forall₂_map_eq {α β γ : Type} {f : α → γ} {g : β → γ} :
    ∀ {l : List α} {l' : List β},
      List.Forall₂ (fun a b => g b = f a) l l' → l'.map g = l.map f := by
  intro l l' h
  induction h with
  | nil => rfl
  | cons hab _ ih => simp [ih, hab]

lemma catRows_shape : ∀ (a b : List (List ℚ)) (n wa wb : ℕ),
    hasShape a n wa → hasShape b n wb → hasShape (catRows a b) n (wa + wb) := by
  intro a
  induction a with
  | nil =>
    intro b n wa wb ha _
    obtain ⟨ha1, -⟩ := ha
    exact ⟨by simpa [catRows] using ha1, by simp [catRows]⟩
  | cons r a ih =>
    intro b n wa wb ha hb
    cases b with
    | nil =>
      obtain ⟨ha1, -⟩ := ha
      obtain ⟨hb1, -⟩ := hb
      simp at ha1 hb1
      omega
    | cons s b =>
      obtain ⟨ha1, ha2⟩ := ha
      obtain ⟨hb1, hb2⟩ := hb
      simp at ha1 hb1
      have hta : hasShape a a.length wa :=
        ⟨rfl, fun q hq => ha2 q (List.mem_cons_of_mem _ hq)⟩
      have htb : hasShape b a.length wb :=
        ⟨by omega, fun q hq => hb2 q (List.mem_cons_of_mem _ hq)⟩
      have hrec := ih b a.length wa wb hta htb
      refine ⟨?_, ?_⟩
      · simp only [catRows, List.zipWith_cons_cons, List.length_cons]
        have : (List.zipWith (fun x y => x ++ y) a b).length = a.length := hrec.1
        omega
      · intro q hq
        simp only [catRows, List.zipWith_cons_cons] at hq
        rcases List.mem_cons.mp hq with h1 | h2
        · subst h1
          rw [List.length_append, ha2 r (List.mem_cons_self _ _),
            hb2 s (List.mem_cons_self _ _)]
        · exact hrec.2 q h2

lemma foldl_catRows_shape :
    ∀ (ts : List (List (List ℚ))) (acc : List (List ℚ)) (n wacc : ℕ)
      (ws : List ℕ),
      hasShape acc n wacc →
      List.Forall₂ (fun t w => hasShape t n w) ts ws →
      hasShape (ts.foldl catRows acc) n (wacc + ws.sum) := by
  intro ts
  induction ts with
  | nil =>
    intro acc n wacc ws hacc hts
    cases hts
    simpa using hacc
  | cons t ts ih =>
    intro acc n wacc ws hacc hts
    cases hts with
    | cons h1 h2 =>
      rename_i w ws'
      have hstep := catRows_shape acc t n wacc w hacc h1
      have hrec := ih (catRows acc t) n (wacc + w) ws' hstep h2
      simpa [Nat.add_assoc] using hrec

lemma catDim1_shape (ts : List (List (List ℚ))) (n : ℕ) (ws : List ℕ)
    (hne : ts ≠ [])
    (hts : List.Forall₂ (fun t w => hasShape t n w) ts ws) :
    ∃ out, catDim1 ts = .ok out ∧ hasShape out n ws.sum := by
  cases ts with
  | nil => exact absurd rfl hne
  | cons t rest =>
    cases hts with
    | cons h1 h2 =>
      rename_i w ws'
      have hall : (rest.all fun s => s.length == t.length) = true := by
        rw [List.all_eq_true]
        intro s hs
        obtain ⟨w', _, hsw⟩ := forall₂_mem_left h2 s hs
        have : s.length = t.length := by rw [hsw.1, h1.1]
        simpa using this
      have hfold := foldl_catRows_shape rest t n w ws' h1 h2
      refine ⟨rest.foldl catRows t, ?_, ?_⟩
      · simp [catDim1, hall]
      · simpa using hfold

lemma setListGradSt_spec :
    ∀ (names : List String) (d : List (String × PyTensor)),
      (∀ k ∈ names, ∃ p ∈ d, p.1 = k) →
      (setListGradSt d names).2 = true ∧
      List.Forall₂ (fun p q => q.1 = p.1 ∧ q.2.data = p.2.data ∧
          q.2.requiresGrad = (p.2.requiresGrad || decide (p.1 ∈ names)))
        d (setListGradSt d names).1 := by
  intro names
  induction names with
  | nil =>
    intro d _
    refine ⟨rfl, ?_⟩
    have hid : (setListGradSt d []).1 = d := rfl
    rw [hid, List.forall₂_same]
    intro p _
    simp
  | cons key rest ih =>
    intro d hmem
    obtain ⟨p0, hp0, he0⟩ := hmem key (List.mem_cons_self _ _)
    have hany : (d.any fun p => p.1 == key) = true := by
      rw [List.any_eq_true]
      exact ⟨p0, hp0, by simp [he0]⟩
    have hmem' : ∀ k ∈ rest, ∃ p ∈ setKeyGrad d key, p.1 = k := by
      intro k hk
      obtain ⟨p, hp, he⟩ := hmem k (List.mem_cons_of_mem _ hk)
      refine ⟨_, List.mem_map.mpr ⟨p, hp, rfl⟩, ?_⟩
      by_cases hc : p.1 = key
      · rw [if_pos hc]; exact he
      · rw [if_neg hc]; exact he
    have hrec := ih (setKeyGrad d key) hmem'
    have hstep : setListGradSt d (key :: rest)
        = setListGradSt (setKeyGrad d key) rest := by
      simp [setListGradSt, hany]
    rw [hstep]
    refine ⟨hrec.1, ?_⟩
    have h2 := hrec.2
    simp only [setKeyGrad] at h2
    rw [List.forall₂_map_left_iff] at h2
    refine List.Forall₂.imp ?_ h2
    intro p q hpq
    obtain ⟨h1', h2', h3'⟩ := hpq
    by_cases hc : p.1 = key
    · simp only [hc, if_pos rfl] at h1' h2' h3'
      refine ⟨by simpa [hc] using h1', h2', ?_⟩
      rw [h3']
      simp [List.mem_cons, hc]
    · simp only [if_neg hc] at h1' h2' h3'
      refine ⟨h1', h2', ?_⟩
      rw [h3']
      simp [List.mem_cons, hc]

/-- C10: if `track_gradients` is neither a bool nor an iterable,
`_prepare_inputs` raises `TypeError`, the caller's dict is returned
entirely unchanged (no `requires_grad` flag is touched), and no stacked
tensor is produced. -/
theorem prepare_inputs_invalid_track_gradients
    (d : List (String × PyTensor)) :
    prepare_inputs d .invalid = (d, .error .typeError) := rfl

/-- C4: for every non-empty input dict of 2-D tensors that all share
leading dimension `n` (the widths listed by `ws` entrywise),
`_prepare_inputs` returns one stacked tensor of shape `(n, ws.sum)`,
formed by concatenating the tensors along dimension 1 in the dict's
iteration order. -/
theorem prepare_inputs_cat_shape
    (d : List (String × PyTensor)) (b : Bool) (n : ℕ) (ws : List ℕ)
    (hne : d ≠ [])
    (hsh : List.Forall₂ (fun p w => hasShape p.2.data n w) d ws) :
    ∃ out, (prepare_inputs d (.bool b)).2 = .ok out ∧ hasShape out n ws.sum := by
  have hts : List.Forall₂ (fun t w => hasShape t n w)
      (d.map fun p => p.2.data) ws := List.forall₂_map_left_iff.mpr hsh
  have hne' : (d.map fun p => p.2.data) ≠ [] := by simpa using hne
  cases b with
  | false =>
    obtain ⟨out, h1, h2⟩ := catDim1_shape _ n ws hne' hts
    exact ⟨out, h1, h2⟩
  | true =>
    have hdata : ((d.map fun p => (p.1, (⟨p.2.data, true⟩ : PyTensor))).map
        fun p => p.2.data) = d.map fun p => p.2.data := by
      rw [List.map_map]
      rfl
    obtain ⟨out, h1, h2⟩ := catDim1_shape _ n ws hne' hts
    refine ⟨out, ?_, h2⟩
    show catDim1 ((d.map fun p => (p.1, (⟨p.2.data, true⟩ : PyTensor))).map
        fun p => p.2.data) = .ok out
    rw [hdata]
    exact h1

/-- A small concrete input dict with two one-column tensors of two rows,
used to witness the `_prepare_inputs` theorems. -/
def sampleDict : List (String × PyTensor) :=
  [("x", ⟨[[1], [2]], false⟩), ("t", ⟨[[3], [4]], false⟩)]

theorem prepare_inputs_cat_shape_witness :
    (sampleDict ≠ []
      ∧ List.Forall₂ (fun p w => hasShape p.2.data 2 w) sampleDict [1, 1])
    ∧ ∃ out, (prepare_inputs sampleDict (.bool true)).2 = .ok out
        ∧ hasShape out 2 ([1, 1] : List ℕ).sum :=
  ⟨⟨by simp [sampleDict],
      by
        refine List.Forall₂.cons ⟨rfl, ?_⟩ (List.Forall₂.cons ⟨rfl, ?_⟩ .nil)
        · intro r hr
          rcases List.mem_cons.mp hr with h | h
          · simp [h]
          · simp at h; simp [h]
        · intro r hr
          rcases List.mem_cons.mp hr with h | h
          · simp [h]
          · simp at h; simp [h]⟩,
    prepare_inputs_cat_shape sampleDict true 2 [1, 1] (by simp [sampleDict])
      (by
        refine List.Forall₂.cons ⟨rfl, ?_⟩ (List.Forall₂.cons ⟨rfl, ?_⟩ .nil)
        · intro r hr
          rcases List.mem_cons.mp hr with h | h
          · simp [h]
          · simp at h; simp [h]
        · intro r hr
          rcases List.mem_cons.mp hr with h | h
          · simp [h]
          · simp at h; simp [h])⟩

/-- C5: `_prepare_inputs` resolves `track_gradients` as follows: `True`
marks every tensor in the dict for differentiation; an iterable of names
marks exactly the named entries (starting from unmarked tensors); `False`
marks nothing and leaves the dict unchanged. -/
theorem prepare_inputs_track_gradients_resolution
    (d : List (String × PyTensor)) (names : List String)
    (hmem : ∀ k ∈ names, ∃ p ∈ d, p.1 = k)
    (hinit : ∀ p ∈ d, p.2.requiresGrad = false) :
    (∀ p ∈ (prepare_inputs d (.bool true)).1, p.2.requiresGrad = true)
    ∧ (prepare_inputs d (.bool false)).1 = d
    ∧ List.Forall₂ (fun p q => q.1 = p.1 ∧ q.2.data = p.2.data ∧
        q.2.requiresGrad = decide (p.1 ∈ names))
      d (prepare_inputs d (.strList names)).1 := by
  refine ⟨?_, rfl, ?_⟩
  · intro p hp
    have hp' : p ∈ d.map fun r => (r.1, (⟨r.2.data, true⟩ : PyTensor)) := hp
    obtain ⟨q, _, rfl⟩ := List.mem_map.mp hp'
    rfl
  · have hspec := setListGradSt_spec names d hmem
    have hfst : (prepare_inputs d (.strList names)).1
        = (setListGradSt d names).1 := by
      show (match setListGradSt d names with
        | (d', true) =>
          (d', catDim1 (d'.map fun p : String × PyTensor => p.2.data))
        | (d', false) => (d', .error .keyError)).1 = (setListGradSt d names).1
      rcases setListGradSt d names with ⟨d', b⟩
      cases b <;> rfl
    rw [hfst]
    refine forall₂_imp_mem hspec.2 ?_
    intro p hp q hq
    obtain ⟨h1, h2, h3⟩ := hq
    exact ⟨h1, h2, by rw [h3, hinit p hp, Bool.false_or]⟩

theorem prepare_inputs_track_gradients_resolution_witness :
    ((∀ k ∈ ["t"], ∃ p ∈ sampleDict, p.1 = k)
      ∧ (∀ p ∈ sampleDict, p.2.requiresGrad = false))
    ∧ ((∀ p ∈ (prepare_inputs sampleDict (.bool true)).1,
          p.2.requiresGrad = true)
      ∧ (prepare_inputs sampleDict (.bool false)).1 = sampleDict
      ∧ List.Forall₂ (fun p q => q.1 = p.1 ∧ q.2.data = p.2.data ∧
          q.2.requiresGrad = decide (p.1 ∈ ["t"]))
        sampleDict (prepare_inputs sampleDict (.strList ["t"])).1) :=
  ⟨⟨by decide, by decide⟩,
    prepare_inputs_track_gradients_resolution sampleDict ["t"]
      (by decide) (by decide)⟩

/-- C9: `_prepare_inputs` mutates the caller's dict in place (modelled as
the returned post-call dict): with `track_gradients = True` every stored
tensor is marked `requires_grad`; with a list of names, a tensor stored
under a listed key is marked; with `False` the dict is returned entirely
untouched; and in the list case only the flags change — every key and
every tensor's data survive unmodified. -/
theorem prepare_inputs_in_place_mutation
    (d : List (String × PyTensor)) (names : List String) (k : String)
    (hk : k ∈ names)
    (hmem : ∀ j ∈ names, ∃ p ∈ d, p.1 = j) :
    (prepare_inputs d (.bool false)).1 = d
    ∧ (∀ p ∈ (prepare_inputs d (.bool true)).1, p.2.requiresGrad = true)
    ∧ (∀ p ∈ (prepare_inputs d (.strList names)).1,
        p.1 = k → p.2.requiresGrad = true)
    ∧ ((prepare_inputs d (.strList names)).1.map fun p => (p.1, p.2.data))
        = d.map fun p => (p.1, p.2.data) := by
  have hspec := setListGradSt_spec names d hmem
  have hfst : (prepare_inputs d (.strList names)).1
      = (setListGradSt d names).1 := by
    show (match setListGradSt d names with
      | (d', true) =>
        (d', catDim1 (d'.map fun p : String × PyTensor => p.2.data))
      | (d', false) => (d', .error .keyError)).1 = (setListGradSt d names).1
    rcases setListGradSt d names with ⟨d', b⟩
    cases b <;> rfl
  refine ⟨rfl, ?_, ?_, ?_⟩
  · intro p hp
    have hp' : p ∈ d.map fun r => (r.1, (⟨r.2.data, true⟩ : PyTensor)) := hp
    obtain ⟨q, _, rfl⟩ := List.mem_map.mp hp'
    rfl
  · intro p hp hpk
    rw [hfst] at hp
    obtain ⟨q, _, h1, _, h3⟩ := forall₂_mem_right hspec.2 p hp
    rw [h3]
    have hq1 : q.1 ∈ names := by rw [← h1, hpk]; exact hk
    simp [hq1]
  · rw [hfst]
    refine forall₂_map_eq (List.Forall₂.imp ?_ hspec.2)
    intro p q hpq
    rw [hpq.1, hpq.2.1]

theorem prepare_inputs_in_place_mutation_witness :
    (("t" ∈ ["t"]) ∧ (∀ j ∈ ["t"], ∃ p ∈ sampleDict, p.1 = j))
    ∧ ((prepare_inputs sampleDict (.bool false)).1 = sampleDict
      ∧ (∀ p ∈ (prepare_inputs sampleDict (.bool true)).1,
          p.2.requiresGrad = true)
      ∧ (∀ p ∈ (prepare_inputs sampleDict (.strList ["t"])).1,
          p.1 = "t" → p.2.requiresGrad = true)
      ∧ ((prepare_inputs sampleDict (.strList ["t"])).1.map
            fun p => (p.1, p.2.data))
          = sampleDict.map fun p => (p.1, p.2.data)) :=
  ⟨⟨by decide, by decide⟩,
    prepare_inputs_in_place_mutation sampleDict ["t"] "t"
      (by decide) (by decide)⟩

/-- Modelled from the spec: a 1-D interval domain with lower and upper
bound, the geometric capability consumed by a Variable (the domain
classes are not among the sources at hand). -/
structure IntervalDom where
  low : ℚ
  high : ℚ
deriving DecidableEq

/-- Modelled from the spec: the deterministic grid of n points over an
interval; equally spaced points (the exact spacing is not load-bearing
for any claim, only determinism and distinctness are). -/
def linspace (a b : ℚ) (n : ℕ) : List ℚ :=
  (List.range n).map fun i => a + (b - a) * i / (n - 1)

/-- Modelled from the spec: resolution of a scalar dataset_size for grid
sampling over v variables: each variable gets the same resolution k,
the largest integer with k ^ v ≤ total, so that the Cartesian product
approximates the requested total (100 over 2 variables gives 10 per
variable). -/
def intRoot (total v : ℕ) : ℕ :=
  ((List.range (total + 2)).filter fun k => k ^ v ≤ total).foldl max 0

/-- Modelled from the spec: full Cartesian product of the per-variable
grids, row-major: the first-declared variable varies slowest (outer
loop), the last-declared fastest (inner loop). -/
def cartesianRows : List (List ℚ) → List (List ℚ)
  | [] => [[]]
  | g :: gs => g.flatMap fun v => (cartesianRows gs).map fun r => v :: r

/-- Modelled from the spec: grid-strategy sampling of the DataCreator
over interval variables (the datacreator module is not among the
sources; only its tests are): each variable is sampled on a grid of
resolution k and the grids are combined by full Cartesian product;
the result maps each variable name, in declaration order, to its column
of the combined rows. -/
def gridBatch (vars : List (String × IntervalDom)) (k : ℕ) :
    List (String × List ℚ) :=
  let rows := cartesianRows (vars.map fun p => linspace p.2.low p.2.high k)
  vars.enum.map fun q => (q.2.1, rows.map fun r => r.getD q.1 0)

/-- Modelled from the spec: the plot-variable selector stored on a
Condition: a bool, already an explicit Variable, or an explicit set of
variables (the latter two are passed through by
get_data_plot_variables). -/
inductive PlotVars where
  | bool (b : Bool)
  | var (v : String × IntervalDom)
  | set (s : List (String × IntervalDom))
deriving DecidableEq

/-- Modelled from the spec: the result of get_data_plot_variables:
None, the full variables mapping, or a single Variable. -/
inductive PlotResult where
  | none
  | mapping (m : List (String × IntervalDom))
  | single (v : String × IntervalDom)
deriving DecidableEq

/-- Modelled from the spec: the observable state of the base Condition:
name, norm (recorded by class name), weight, plot-variable selector and
the registration field, None while unregistered. -/
structure ConditionM where
  name : String
  norm : String
  weight : ℚ
  data_plot_variables : PlotVars
  variables' : Option (List (String × IntervalDom))
deriving DecidableEq

/-- Modelled from the spec: the base Condition.get_data: None while
variables is None, and None as the neutral default otherwise (the base
class owns no data source; concrete data access lives in the
subclasses). -/
def ConditionM.get_data (c : ConditionM) :
    Option (List (String × List ℚ)) :=
  match c.variables' with
  | none => none
  | some _ => none

/-- Modelled from the spec: the base Condition.get_data_plot_variables:
None if data_plot_variables is falsy; the full variables mapping if it
is True; data_plot_variables itself if it is already a Variable or an
explicit set (pass-through). -/
def ConditionM.get_data_plot_variables (c : ConditionM) : PlotResult :=
  match c.data_plot_variables with
  | .bool false => .none
  | .bool true => .mapping (c.variables'.getD [])
  | .var v => .single v
  | .set s => .mapping s

/-- Modelled from the spec: the observable state of a DiffEqCondition:
its sampling strategy and scalar dataset size (held by its owned
DataCreator) and the registration field. -/
structure DiffEqConditionM where
  name : String
  weight : ℚ
  sampling_strategy : String
  dataset_size : ℕ
  variables' : Option (List (String × IntervalDom))
deriving DecidableEq

/-- Modelled from the spec: DiffEqCondition.get_data (the condition
module is not among the sources; only its tests are): RuntimeError while
unregistered; NotImplementedError once variables are set when the
sampling strategy is outside the recognized set; otherwise the sampled
batch.  Grid sampling is modelled exactly; the values drawn by random
sampling come from a process-wide random source outside a shallow
embedding and are modelled by the same deterministic grid (no claim
depends on them). -/
def DiffEqConditionM.get_data (c : DiffEqConditionM) :
    Except PyErr (List (String × List ℚ)) :=
  match c.variables' with
  | none => .error .runtimeError
  | some vars =>
    if c.sampling_strategy = "random" ∨ c.sampling_strategy = "grid" then
      .ok (gridBatch vars (intRoot c.dataset_size vars.length))
    else .error .notImplementedError

/-- Modelled from the spec: DataCondition wraps externally supplied
(data_x, data_u); get_data raises RuntimeError while unregistered and
otherwise returns the pair unchanged. -/
structure DataConditionM where
  name : String
  data_x : List (String × List ℚ)
  data_u : List ℚ
  variables' : Option (List (String × IntervalDom))
deriving DecidableEq

def DataConditionM.get_data (c : DataConditionM) :
    Except PyErr (List (String × List ℚ) × List ℚ) :=
  match c.variables' with
  | none => .error .runtimeError
  | some _ => .ok (c.data_x, c.data_u)

/-- Modelled from the spec: the observable state of a BoundaryCondition:
the base Condition state plus the designated boundary variable. -/
structure BoundaryConditionM where
  name : String
  norm : String
  weight : ℚ
  data_plot_variables : PlotVars
  variables' : Option (List (String × IntervalDom))
  boundary_variable : Option (String × IntervalDom)
deriving DecidableEq

/-- Modelled from the spec and pinned by
test_get_data_plot_varibales_boundary_conditon: BoundaryCondition
overrides get_data_plot_variables so that a True selector yields the
boundary variable (not the full variables mapping); falsy still gives
None and an explicit Variable or set still passes through. -/
def BoundaryConditionM.get_data_plot_variables (c : BoundaryConditionM) :
    PlotResult :=
  match c.data_plot_variables with
  | .bool false => .none
  | .bool true =>
    match c.boundary_variable with
    | some v => .single v
    | none => .none
  | .var v => .single v
  | .set s => .mapping s

/-- Mean squared error: the mean of the squared entrywise differences of
two equally shaped 2-D arrays (torch.nn.MSELoss). -/
def mseLoss (a b : List (List ℚ)) : ℚ :=
  let d := List.zipWith (fun r s => List.zipWith (fun x y => (x - y) ^ 2) r s) a b
  (d.map fun r => r.sum).sum / ((a.map fun r => r.length).sum : ℕ)

/-- Modelled from the spec: the state a DirichletCondition needs for
forward: the configured norm and weight (the prescribed boundary value
is baked into the target at data-creation time, so forward only sees
(data, target)). -/
structure DirichletConditionM where
  name : String
  norm : List (List ℚ) → List (List ℚ) → ℚ
  weight : ℚ

/-- Modelled from the spec and pinned by test_forward_dirichlet_condition:
DirichletCondition.forward(model, (data, target)) evaluates the model on
the sample batch and reduces against the precomputed target through the
configured norm.  No weight factor is applied: the test constructs the
condition with weight 1.5 and expects exactly 1.0. -/
def DirichletConditionM.forward (c : DirichletConditionM)
    (model : List (String × List (List ℚ)) → List (List ℚ))
    (data : List (String × List (List ℚ)) × List (List ℚ)) : ℚ :=
  c.norm (model data.1) data.2

/-- The helper model of the test suite: returns the input variable x. -/
def modelX (d : List (String × List (List ℚ))) : List (List ℚ) :=
  (List.lookup "x" d).getD []

/-- Repetition of the interior batch once per boundary sample: the whole
column is tiled K times, K the number of boundary samples. -/
def tileRows (boundary : List (List ℚ)) (col : List (List ℚ)) :
    List (List ℚ) :=
  match boundary with
  | [] => []
  | _ :: bs => col ++ tileRows bs col

/-- The boundary column of the meshed batch: each boundary sample is
held constant over one full copy of the interior batch (m consecutive
rows). -/
def repRows (boundary : List (List ℚ)) (m : ℕ) : List (List ℚ) :=
  match boundary with
  | [] => []
  | b :: bs => List.replicate m b ++ repRows bs m

/-- The number of rows of the interior batch, read off its first column
(all columns of a well-formed batch agree). -/
def interiorRowCount : List (String × List (List ℚ)) → ℕ
  | [] => 0
  | p :: _ => p.2.length

/-- Modelled from the spec: BoundaryDataCreator.mesh_inner_and_boundary_data
(the datacreator module is not among the sources; only its tests are).
Combines the interior variables' batch with the boundary variable's
samples via Cartesian product and appends the boundary column last.
The combination order is pinned by test_boundary_data_meshing: each
boundary sample is held constant over one full copy of the interior
batch, i.e. the boundary variable varies slowest and the interior rows
vary fastest (the spec sentence claiming the boundary variable varies
fastest contradicts that test). -/
def mesh_inner_and_boundary_data (interior : List (String × List (List ℚ)))
    (bvar : String) (boundary : List (List ℚ)) :
    List (String × List (List ℚ)) :=
  (interior.map fun p => (p.1, tileRows boundary p.2))
    ++ [(bvar, repRows boundary (interiorRowCount interior))]

lemma tileRows_length (boundary : List (List ℚ)) (col : List (List ℚ)) :
    (tileRows boundary col).length = boundary.length * col.length := by
  induction boundary with
  | nil => simp [tileRows]
  | cons b bs ih => simp [tileRows, ih, Nat.succ_mul, Nat.add_comm]

lemma repRows_length (boundary : List (List ℚ)) (m : ℕ) :
    (repRows boundary m).length = boundary.length * m := by
  induction boundary with
  | nil => simp [repRows]
  | cons b bs ih => simp [repRows, ih, Nat.succ_mul, Nat.add_comm]

lemma tileRows_count (boundary : List (List ℚ)) (col : List (List ℚ))
    (r : List ℚ) :
    (tileRows boundary col).count r = boundary.length * col.count r := by
  induction boundary with
  | nil => simp [tileRows]
  | cons b bs ih => simp [tileRows, ih, Nat.succ_mul, Nat.add_comm]

/-- C2 (amended): for every non-empty interior batch whose columns all
have m rows and every boundary array of K rows,
mesh_inner_and_boundary_data returns a batch whose every column has
m * K rows, with the boundary-variable column appended last; every
interior row appears once per boundary sample (its multiplicity is
multiplied by K), and each boundary sample is held constant over one
full copy of the interior batch — the boundary variable varies slowest
and the interior rows vary fastest, as test_boundary_data_meshing pins
down (the spec's claim that the boundary variable varies fastest fails,
see the counterexample). -/
theorem mesh_inner_and_boundary_shape
    (interior : List (String × List (List ℚ))) (bvar : String)
    (boundary : List (List ℚ)) (m : ℕ)
    (hne : interior ≠ [])
    (hm : ∀ p ∈ interior, p.2.length = m) :
    (∀ p ∈ mesh_inner_and_boundary_data interior bvar boundary,
        p.2.length = m * boundary.length)
    ∧ ((mesh_inner_and_boundary_data interior bvar boundary).map Prod.fst
        = interior.map Prod.fst ++ [bvar])
    ∧ (∀ p ∈ interior,
        (p.1, tileRows boundary p.2)
            ∈ mesh_inner_and_boundary_data interior bvar boundary
          ∧ ∀ r, (tileRows boundary p.2).count r
              = boundary.length * p.2.count r)
    ∧ (bvar, repRows boundary m)
        ∈ mesh_inner_and_boundary_data interior bvar boundary := by
  have hm0 : interiorRowCount interior = m := by
    cases interior with
    | nil => exact absurd rfl hne
    | cons p tl => exact hm p (List.mem_cons_self _ _)
  refine ⟨?_, ?_, ?_, ?_⟩
  · intro p hp
    rcases List.mem_append.mp hp with h | h
    · obtain ⟨q, hq, rfl⟩ := List.mem_map.mp h
      rw [tileRows_length, hm q hq, Nat.mul_comm]
    · have : p = (bvar, repRows boundary (interiorRowCount interior)) := by
        simpa using h
      rw [this, repRows_length, hm0, Nat.mul_comm]
  · show ((interior.map fun p => (p.1, tileRows boundary p.2))
        ++ [(bvar, repRows boundary (interiorRowCount interior))]).map Prod.fst
      = interior.map Prod.fst ++ [bvar]
    rw [List.map_append, List.map_map]
    rfl
  · intro p hp
    refine ⟨?_, fun r => tileRows_count boundary p.2 r⟩
    exact List.mem_append.mpr (Or.inl (List.mem_map.mpr ⟨p, hp, rfl⟩))
  · rw [← hm0]
    exact List.mem_append.mpr (Or.inr (by simp))

/-- The concrete interior batch of test_boundary_data_meshing. -/
def meshTestInterior : List (String × List (List ℚ)) :=
  [("x", [[1], [2]]), ("t", [[1, 1], [3, 0]])]

/-- The concrete boundary samples of test_boundary_data_meshing. -/
def meshTestBoundary : List (List ℚ) := [[0], [1]]

theorem mesh_inner_and_boundary_shape_witness :
    (meshTestInterior ≠ [] ∧ ∀ p ∈ meshTestInterior, p.2.length = 2)
    ∧ ((∀ p ∈ mesh_inner_and_boundary_data meshTestInterior "r" meshTestBoundary,
          p.2.length = 2 * meshTestBoundary.length)
      ∧ ((mesh_inner_and_boundary_data meshTestInterior "r" meshTestBoundary).map
            Prod.fst = meshTestInterior.map Prod.fst ++ ["r"])
      ∧ (∀ p ∈ meshTestInterior,
          (p.1, tileRows meshTestBoundary p.2)
              ∈ mesh_inner_and_boundary_data meshTestInterior "r" meshTestBoundary
            ∧ ∀ r, (tileRows meshTestBoundary p.2).count r
                = meshTestBoundary.length * p.2.count r)
      ∧ ("r", repRows meshTestBoundary 2)
          ∈ mesh_inner_and_boundary_data meshTestInterior "r" meshTestBoundary) :=
  ⟨⟨by decide, by decide⟩,
    mesh_inner_and_boundary_shape meshTestInterior "r" meshTestBoundary 2
      (by decide) (by decide)⟩

/-- C2 counterexample: at the concrete input of test_boundary_data_meshing
(interior x = [[1],[2]], t = [[1,1],[3,0]], boundary r = [[0],[1]]) the
meshed batch is exactly the matrix that test expects, whose r column is
[[0],[0],[1],[1]]: each boundary value is constant over a block of
interior rows.  Were the boundary variable the fastest-varying one, as
the claim states, the r column would be [[0],[1],[0],[1]]; it is not. -/
theorem mesh_boundary_fastest_counterexample :
    mesh_inner_and_boundary_data meshTestInterior "r" meshTestBoundary
      = [("x", [[1], [2], [1], [2]]),
         ("t", [[1, 1], [3, 0], [1, 1], [3, 0]]),
         ("r", [[0], [0], [1], [1]])]
    ∧ List.lookup "r"
        (mesh_inner_and_boundary_data meshTestInterior "r" meshTestBoundary)
      ≠ some [[(0 : ℚ)], [1], [0], [1]] := by
  constructor
  · decide
  · decide

/-- Modelled from the spec: the samples a registered BoundaryDataCreator
produces over interval variables: every interior variable on its
interval grid of resolution k (rows of width 1), meshed against the
boundary variable's samples — the boundary of a 1-D interval is its two
endpoints — with the boundary column appended last.  Used by the data
side of the Dirichlet and Neumann conditions below. -/
def boundaryGridBatch (vars : List (String × IntervalDom))
    (bvar : String) (k : ℕ) : List (String × List (List ℚ)) :=
  let interior := (vars.filter fun p => p.1 != bvar).map
    fun p => (p.1, (linspace p.2.low p.2.high k).map fun v => [v])
  let boundary : List (List ℚ) :=
    match List.lookup bvar vars with
    | some dom => [[dom.low], [dom.high]]
    | none => []
  mesh_inner_and_boundary_data interior bvar boundary

/-- Modelled from the spec: the outward unit normal of a 1-D interval
domain at a boundary point: -1 at the lower bound, +1 at the upper. -/
def intervalNormal (dom : IntervalDom) (p : List ℚ) : List ℚ :=
  if p.getD 0 0 = dom.low then [-1] else [1]

/-- Modelled from the spec: the data-side state of a DirichletCondition
(its forward contract, which only sees (data, target), is modelled by
DirichletConditionM above): the registration field, the designated
boundary variable, the dataset size of its owned BoundaryDataCreator
and the user-supplied boundary-value function. -/
structure DirichletConditionDataM where
  name : String
  weight : ℚ
  dataset_size : ℕ
  variables' : Option (List (String × IntervalDom))
  boundary_variable : Option String
  dirichlet_fun : List (String × List (List ℚ)) → List (List ℚ)

/-- Modelled from the spec: DirichletCondition.get_data: RuntimeError
while unregistered; once registered it returns (SampleBatch, target)
with target the precomputed dirichlet_fun of the sampled batch.  The
boundary-variable name defaults to the empty string while unset (the
registration collaborator sets it together with variables). -/
def DirichletConditionDataM.get_data (c : DirichletConditionDataM) :
    Except PyErr (List (String × List (List ℚ)) × List (List ℚ)) :=
  match c.variables' with
  | none => .error .runtimeError
  | some vars =>
    let batch := boundaryGridBatch vars (c.boundary_variable.getD "")
      (intRoot c.dataset_size vars.length)
    .ok (batch, c.dirichlet_fun batch)

/-- Modelled from the spec: the data-side state of a NeumannCondition:
as for Dirichlet, with the user-supplied flux function. -/
structure NeumannConditionM where
  name : String
  weight : ℚ
  dataset_size : ℕ
  variables' : Option (List (String × IntervalDom))
  boundary_variable : Option String
  neumann_fun : List (String × List (List ℚ)) → List (List ℚ)

/-- Modelled from the spec: NeumannCondition.get_data: RuntimeError
while unregistered; once registered it returns (SampleBatch, target,
normals) with target the precomputed neumann_fun of the batch and the
normals read off the boundary variable's interval at each sampled
boundary point. -/
def NeumannConditionM.get_data (c : NeumannConditionM) :
    Except PyErr ((List (String × List (List ℚ)))
      × List (List ℚ) × List (List ℚ)) :=
  match c.variables' with
  | none => .error .runtimeError
  | some vars =>
    let bvar := c.boundary_variable.getD ""
    let batch := boundaryGridBatch vars bvar (intRoot c.dataset_size vars.length)
    let bdom := (List.lookup bvar vars).getD ⟨0, 0⟩
    let normals := ((List.lookup bvar batch).getD []).map (intervalNormal bdom)
    .ok (batch, c.neumann_fun batch, normals)

/-- C3: while variables is None (unregistered) the base Condition's
get_data returns None, whereas get_data on a DiffEqCondition, a
DataCondition, a DirichletCondition or a NeumannCondition raises
RuntimeError; once variables is set, get_data no longer raises for
registration reasons (a registered condition never yields RuntimeError;
a bad strategy becomes NotImplementedError instead). -/
theorem unregistered_get_data_behavior
    (c : ConditionM) (e r : DiffEqConditionM) (d0 d1 : DataConditionM)
    (g0 g1 : DirichletConditionDataM) (n0 n1 : NeumannConditionM)
    (hc : c.variables' = none) (he : e.variables' = none)
    (hr : r.variables'.isSome = true) (hd0 : d0.variables' = none)
    (hd1 : d1.variables'.isSome = true) (hg0 : g0.variables' = none)
    (hg1 : g1.variables'.isSome = true) (hn0 : n0.variables' = none)
    (hn1 : n1.variables'.isSome = true) :
    c.get_data = none
    ∧ e.get_data = .error .runtimeError
    ∧ d0.get_data = .error .runtimeError
    ∧ g0.get_data = .error .runtimeError
    ∧ n0.get_data = .error .runtimeError
    ∧ r.get_data ≠ .error .runtimeError
    ∧ d1.get_data ≠ .error .runtimeError
    ∧ g1.get_data ≠ .error .runtimeError
    ∧ n1.get_data ≠ .error .runtimeError := by
  obtain ⟨rv, hrv⟩ := Option.isSome_iff_exists.mp hr
  obtain ⟨dv, hdv⟩ := Option.isSome_iff_exists.mp hd1
  obtain ⟨gv, hgv⟩ := Option.isSome_iff_exists.mp hg1
  obtain ⟨nv, hnv⟩ := Option.isSome_iff_exists.mp hn1
  refine ⟨?_, ?_, ?_, ?_, ?_, ?_, ?_, ?_, ?_⟩
  · simp [ConditionM.get_data, hc]
  · simp [DiffEqConditionM.get_data, he]
  · simp [DataConditionM.get_data, hd0]
  · simp [DirichletConditionDataM.get_data, hg0]
  · simp [NeumannConditionM.get_data, hn0]
  · simp only [DiffEqConditionM.get_data, hrv]
    split <;> simp
  · simp [DataConditionM.get_data, hdv]
  · simp [DirichletConditionDataM.get_data, hgv]
  · simp [NeumannConditionM.get_data, hnv]

/-- An unregistered base condition, as in test_none_methode_condition. -/
def unregisteredCond : ConditionM := ⟨"test", "MSELoss", 1, .bool true, none⟩

/-- An unregistered DiffEqCondition, as in
test_get_data_diffeqcondition_not_registered. -/
def unregisteredDiffEq : DiffEqConditionM := ⟨"pde", 1, "grid", 10000, none⟩

/-- A registered DiffEqCondition with a bad strategy, as in
test_get_data_diffeqcondition_wrong_strategy. -/
def registeredDiffEq : DiffEqConditionM := ⟨"pde", 1, "test", 10000, some []⟩

/-- An unregistered DataCondition, as in
test_get_data_datacondition_not_registered. -/
def unregisteredData : DataConditionM :=
  ⟨"test", [("x", [1, 1, 1, 1, 1])], [1, 2, 1, 1, 0], none⟩

/-- The same DataCondition once registered. -/
def registeredData : DataConditionM :=
  ⟨"test", [("x", [1, 1, 1, 1, 1])], [1, 2, 1, 1, 0], some []⟩

/-- The zero-flux function of the neumann tests:
np.zeros_like(input.t). -/
def neumannZero (d : List (String × List (List ℚ))) : List (List ℚ) :=
  ((List.lookup "t" d).getD []).map fun _ => [0]

/-- An unregistered DirichletCondition, as in
test_get_data_dirichlet_qcondition_not_registered (its dirichlet_fun is
the test's input.x). -/
def unregisteredDiri : DirichletConditionDataM :=
  ⟨"test diri", 3 / 2, 50, none, none, modelX⟩

/-- The same DirichletCondition registered with x and the boundary
variable t, as in test_get_data_dirichlet_condition. -/
def registeredDiri : DirichletConditionDataM :=
  ⟨"test diri", 3 / 2, 50, some [("x", ⟨0, 1⟩), ("t", ⟨-3, -2⟩)],
    some "t", modelX⟩

/-- An unregistered NeumannCondition, as in
test_get_data_neumann_condition_not_registered. -/
def unregisteredNeumann : NeumannConditionM :=
  ⟨"test neumann", 1, 50, none, none, neumannZero⟩

/-- The same NeumannCondition registered with x and the boundary
variable t. -/
def registeredNeumann : NeumannConditionM :=
  ⟨"test neumann", 1, 50, some [("x", ⟨0, 1⟩), ("t", ⟨-3, -2⟩)],
    some "t", neumannZero⟩

theorem unregistered_get_data_behavior_witness :
    (unregisteredCond.variables' = none
      ∧ unregisteredDiffEq.variables' = none
      ∧ registeredDiffEq.variables'.isSome = true
      ∧ unregisteredData.variables' = none
      ∧ registeredData.variables'.isSome = true
      ∧ unregisteredDiri.variables' = none
      ∧ registeredDiri.variables'.isSome = true
      ∧ unregisteredNeumann.variables' = none
      ∧ registeredNeumann.variables'.isSome = true)
    ∧ (unregisteredCond.get_data = none
      ∧ unregisteredDiffEq.get_data = .error .runtimeError
      ∧ unregisteredData.get_data = .error .runtimeError
      ∧ unregisteredDiri.get_data = .error .runtimeError
      ∧ unregisteredNeumann.get_data = .error .runtimeError
      ∧ registeredDiffEq.get_data ≠ .error .runtimeError
      ∧ registeredData.get_data ≠ .error .runtimeError
      ∧ registeredDiri.get_data ≠ .error .runtimeError
      ∧ registeredNeumann.get_data ≠ .error .runtimeError) :=
  ⟨⟨rfl, rfl, rfl, rfl, rfl, rfl, rfl, rfl, rfl⟩,
    unregistered_get_data_behavior unregisteredCond unregisteredDiffEq
      registeredDiffEq unregisteredData registeredData unregisteredDiri
      registeredDiri unregisteredNeumann registeredNeumann
      rfl rfl rfl rfl rfl rfl rfl rfl rfl⟩

/-- C6: a DiffEqCondition constructed with the unrecognized sampling
strategy "test" is constructed without error (the string is simply
stored); while variables is None its get_data raises RuntimeError, not
the strategy error; and once variables has been set get_data raises
NotImplementedError: the strategy string is validated lazily, never at
construction time. -/
theorem lazy_strategy_validation (nm : String) (w : ℚ) (ds : ℕ)
    (vars : List (String × IntervalDom)) :
    (DiffEqConditionM.mk nm w "test" ds none).sampling_strategy = "test"
    ∧ (DiffEqConditionM.mk nm w "test" ds none).get_data
        = .error .runtimeError
    ∧ (DiffEqConditionM.mk nm w "test" ds (some vars)).get_data
        = .error .notImplementedError := by
  refine ⟨rfl, rfl, ?_⟩
  have h : ¬("test" = "random" ∨ "test" = "grid") := by decide
  simp [DiffEqConditionM.get_data, h]

/-- The Dirichlet condition of create_dirichlet: MSE norm, weight 1.5. -/
def diriTest : DirichletConditionM := ⟨"test diri", mseLoss, 3 / 2⟩

/-- The data of test_forward_dirichlet_condition:
x = ones(2,1), target = zeros(2,1). -/
def diriData : List (String × List (List ℚ)) × List (List ℚ) :=
  ([("x", [[1], [1]])], [[0], [0]])

/-- C7 counterexample: at the data of test_forward_dirichlet_condition
(model(input) = input.x, x = ones(2,1), target = zeros(2,1), MSE norm,
weight 1.5) forward returns 1, but norm(model(data), target) scaled by
the condition's weight would be 3/2: forward is not the weighted norm. -/
theorem dirichlet_forward_weight_counterexample :
    diriTest.forward modelX diriData = 1
    ∧ diriTest.forward modelX diriData
        ≠ diriTest.weight * diriTest.norm (modelX diriData.1) diriData.2 := by
  constructor
  · norm_num [DirichletConditionM.forward, diriTest, diriData, modelX, mseLoss,
      List.lookup]
  · norm_num [DirichletConditionM.forward, diriTest, diriData, modelX, mseLoss,
      List.lookup]

/-- C7 (amended): DirichletCondition.forward(model, (data, target))
equals norm(model(data), target) with no weight factor applied; with
model(input) = input.x, data ({x: ones(2,1)}, zeros(2,1)) and MSE norm
it returns exactly 1.0 whatever the configured weight. -/
theorem dirichlet_forward_value (nm : String) (w : ℚ) :
    (DirichletConditionM.mk nm mseLoss w).forward modelX diriData
      = mseLoss (modelX diriData.1) diriData.2
    ∧ (DirichletConditionM.mk nm mseLoss w).forward modelX diriData = 1 := by
  refine ⟨rfl, ?_⟩
  show mseLoss (modelX diriData.1) diriData.2 = 1
  norm_num [diriData, modelX, mseLoss, List.lookup]

/-- The boundary condition of test_get_data_plot_varibales_boundary_conditon:
variables holds only x, the boundary variable is t, selector True. -/
def bcPlotTest : BoundaryConditionM :=
  ⟨"test", "MSELoss", 1, .bool true, some [("x", ⟨0, 1⟩)], some ("t", ⟨-1, 1⟩)⟩

/-- C8 counterexample: for a BoundaryCondition (a Condition) whose
registered variables mapping holds x and whose boundary variable is t,
a True selector returns the boundary variable t — not the full
registered variables mapping — exactly as
test_get_data_plot_varibales_boundary_conditon expects. -/
theorem boundary_plot_variables_counterexample :
    bcPlotTest.get_data_plot_variables = .single ("t", ⟨-1, 1⟩)
    ∧ bcPlotTest.get_data_plot_variables
        ≠ .mapping (bcPlotTest.variables'.getD []) := by
  constructor
  · rfl
  · decide

/-- C8 (amended): get_data_plot_variables returns None when
data_plot_variables is falsy, and returns data_plot_variables itself
(pass-through) when it is already a Variable or an explicit set of
variables, on every condition; when data_plot_variables is True the
base Condition (and with it the DiffEq/Data conditions that inherit it)
returns the full registered variables mapping, while BoundaryCondition
overrides it and returns its boundary variable. -/
theorem get_data_plot_variables_cases
    (c : ConditionM) (bc : BoundaryConditionM)
    (v bv : String × IntervalDom)
    (vars s : List (String × IntervalDom)) :
    ({ c with data_plot_variables := .bool false
        } : ConditionM).get_data_plot_variables = .none
    ∧ ({ c with data_plot_variables := .bool true, variables' := some vars
        } : ConditionM).get_data_plot_variables = .mapping vars
    ∧ ({ c with data_plot_variables := .var v
        } : ConditionM).get_data_plot_variables = .single v
    ∧ ({ c with data_plot_variables := .set s
        } : ConditionM).get_data_plot_variables = .mapping s
    ∧ ({ bc with data_plot_variables := .bool false
        } : BoundaryConditionM).get_data_plot_variables = .none
    ∧ ({ bc with data_plot_variables := .bool true, boundary_variable := some bv } : BoundaryConditionM).get_data_plot_variables = .single bv
    ∧ ({ bc with data_plot_variables := .var v
        } : BoundaryConditionM).get_data_plot_variables = .single v
    ∧ ({ bc with data_plot_variables := .set s
        } : BoundaryConditionM).get_data_plot_variables = .mapping s :=
  ⟨rfl, rfl, rfl, rfl, rfl, rfl, rfl, rfl⟩

/-- The DiffEqCondition of test_data_sampling_with_int_grid_diffeqcondition:
grid strategy, scalar dataset_size 100, declared variables x over the
interval 0..1 and then t over -1..1. -/
def gridCondTest : DiffEqConditionM :=
  ⟨"pde", 1, "grid", 100, some [("x", ⟨0, 1⟩), ("t", ⟨-1, 1⟩)]⟩

/-- C1: with two declared variables x and t and scalar grid dataset_size
100 (resolved to per-variable grid sizes (10,10)), get_data returns
columns of 100 combined rows in row-major order: the x column is the x
grid with each value repeated over a block of 10 consecutive rows (rows
0..9 hold x constant; x changes at row 10), and the t column cycles
through the whole t grid inside every such block, so t varies over rows
0..9 and rows 0..10 of the t column equal rows 10..20. -/
theorem grid_sampling_row_major :
    gridCondTest.get_data
      = .ok [("x", (linspace 0 1 10).flatMap fun v => List.replicate 10 v),
             ("t", (linspace 0 1 10).flatMap fun _ => linspace (-1) 1 10)]
    ∧ ((linspace 0 1 10).flatMap fun v => List.replicate 10 v).length = 100
    ∧ ((linspace 0 1 10).flatMap fun _ => linspace (-1) 1 10).length = 100
    ∧ (∀ i < 9,
        ((linspace 0 1 10).flatMap fun v => List.replicate 10 v).getD i 0
          = ((linspace 0 1 10).flatMap
              fun v => List.replicate 10 v).getD (i + 1) 0)
    ∧ ((linspace 0 1 10).flatMap fun v => List.replicate 10 v).getD 0 0
        ≠ ((linspace 0 1 10).flatMap fun v => List.replicate 10 v).getD 10 0
    ∧ ((linspace 0 1 10).flatMap fun _ => linspace (-1) 1 10).getD 0 0
        ≠ ((linspace 0 1 10).flatMap fun _ => linspace (-1) 1 10).getD 1 0
    ∧ ((linspace 0 1 10).flatMap fun _ => linspace (-1) 1 10).take 10
        = (((linspace 0 1 10).flatMap
            fun _ => linspace (-1) 1 10).drop 10).take 10 := by
  have hr : List.range 10 = [0, 1, 2, 3, 4, 5, 6, 7, 8, 9] := rfl
  refine ⟨rfl, rfl, rfl, ?_, ?_, ?_, rfl⟩
  · intro i hi
    interval_cases i <;> rfl
  · norm_num [linspace, hr, List.replicate_succ]
  · norm_num [linspace, hr, List.replicate_succ]
